import Mathlib

/-!
Shallow embedding of `src/data/loader.py`, class `QuarterlyDataCollector`:
amount extraction from filing records (`_extract_raw_amounts` / `find_amount`),
dict arithmetic (`add_dicts` / `sub_dict`), the Q4 = annual − (Q1+Q2+Q3)
derivation, display-row building (`_build_display_row`), and the collection
pipeline (`collect_quarterly_data`).

Modelling conventions:
* Numeric amounts are rationals (`ℚ`); the Python code computes with `float`,
  and every statement below is about the exact arithmetic the code performs.
* Python dicts are association lists with first-binding lookup (`dget`);
  Python sets of keys are deduplicated lists.  All theorems are stated
  extensionally in the key set, so set-iteration order is irrelevant.
* The external collaborators (DART HTTP fetch, company resolution) are
  parameters of `collect_quarterly_data`: resolution is an `Option String`
  and the per-report-code fetch is a function `Quarter → FilingRecord`.
  UI calls (`st.info` etc.) are side-effect-free logging and are omitted.
-/

namespace Loader

/-- Prefix test on character lists (used to model Python substring search). -/
def startsWithChars : List Char → List Char → Bool
  | [], _ => true
  | _ :: _, [] => false
  | a :: as, b :: bs => a == b && startsWithChars as bs

/-- Substring test on character lists. -/
def isSubListOf (needle : List Char) : List Char → Bool
  | [] => needle.isEmpty
  | c :: rest => startsWithChars needle (c :: rest) || isSubListOf needle rest

/-- Case-insensitive substring test, modelling
`df['account_nm'].str.contains(keyword, case=False, na=False)` for the
plain-text (regex-metacharacter-free) keywords the loader uses.  Lowercasing
is ASCII (`Char.toLower`); the Korean keywords are unaffected by case. -/
def containsCI (hay pat : String) : Bool :=
  isSubListOf (pat.data.map Char.toLower) (hay.data.map Char.toLower)

/-- Drop characters satisfying `p` from both ends of a string
(Python `str.strip(chars)`). -/
def stripEnds (p : Char → Bool) (s : String) : String :=
  ⟨((s.data.dropWhile p).reverse.dropWhile p).reverse⟩

/-- Python `val.strip()` (whitespace at both ends). -/
def pyStrip (s : String) : String := stripEnds Char.isWhitespace s

/-- Membership of `c` in the character set `'()'`. -/
def isParenChar (c : Char) : Bool := c == '(' || c == ')'

/-- Python `val.strip('()')`. -/
def stripParens (s : String) : String := stripEnds isParenChar s

/-- Python `str(raw).replace(',', '')`: removes every comma. -/
def stripCommas (s : String) : String := ⟨s.data.filter (fun c => c ≠ ',')⟩

/-- Python `c in val` for a single character `c`. -/
def hasChar (s : String) (c : Char) : Bool := s.data.any (fun x => x == c)

/-- Value of a digit string, most significant digit first. -/
def digitsVal (cs : List Char) : ℕ :=
  cs.foldl (fun a c => a * 10 + (c.toNat - 48)) 0

/-- Unsigned part of Python `float(...)` on the numeral subset occurring in
filings: digits with an optional single decimal point (digits required on at
least one side).  Exponent / `inf` / `nan` spellings are outside the subset
and rejected. -/
def parseFloatCore? (cs : List Char) : Option ℚ :=
  let intPart := cs.takeWhile Char.isDigit
  match cs.dropWhile Char.isDigit with
  | [] => if intPart.isEmpty then none else some (digitsVal intPart : ℚ)
  | '.' :: frac =>
      if frac.all Char.isDigit && !(intPart.isEmpty && frac.isEmpty) then
        some ((digitsVal intPart : ℚ) + (digitsVal frac : ℚ) / (10 : ℚ) ^ frac.length)
      else none
  | _ => none

/-- Sign handling of Python `float(...)` after whitespace stripping. -/
def parseFloatChars? (cs : List Char) : Option ℚ :=
  match cs with
  | [] => none
  | c :: cs' =>
      if c == '-' then (parseFloatCore? cs').map (fun v => -v)
      else if c == '+' then parseFloatCore? cs'
      else parseFloatCore? (c :: cs')

/-- Python `float(val)`: strips surrounding whitespace, then an optionally
signed decimal numeral; `none` models the `ValueError` branch. -/
def parseFloat? (s : String) : Option ℚ :=
  parseFloatChars? (pyStrip s).data

/-- Body of the `try:` block of `find_amount` applied to a raw cell value:
strip thousands separators, rewrite a parenthesized value `(N)` to `-N`,
map `'-'` and `''` to `0.0`, otherwise parse as a float.  `none` models the
exception path (the `continue`). -/
def parseAmount? (raw : String) : Option ℚ :=
  let val := stripCommas raw
  let val := if hasChar val '(' && hasChar val ')' then "-" ++ stripParens val else val
  if pyStrip val == "-" || pyStrip val == "" then some 0
  else parseFloat? val

/-- The two amount columns of a filing record:
`thstrm_amount` (current) and `thstrm_add_amount` (cumulative). -/
inductive Column
  | curr
  | cum
deriving DecidableEq

/-- One account-line row of a fetched filing record. -/
structure FilingRow where
  account_nm : String
  thstrm_amount : String
  thstrm_add_amount : String
deriving DecidableEq

/-- A fetched filing record: the DataFrame's rows plus whether the
`thstrm_add_amount` column exists in the source schema. -/
structure FilingRecord where
  rows : List FilingRow
  hasAddColumn : Bool
deriving DecidableEq

/-- Read the requested amount column from a row (`rows.iloc[0].get(column, '0')`;
the `'0'` default is unreachable because the column is only requested when the
record has it). -/
def getCol (r : FilingRow) : Column → String
  | Column.curr => r.thstrm_amount
  | Column.cum => r.thstrm_add_amount

/-- `find_amount(keywords)` from `_extract_raw_amounts`: for each keyword in
order, take the first row whose account name contains it (case-insensitively)
and try to parse the requested amount column; on a parse failure `continue`
to the next keyword; if no keyword yields a value, return `0.0`. -/
def find_amount (rows : List FilingRow) (col : Column) : List String → ℚ
  | [] => 0
  | kw :: rest =>
    match rows.find? (fun r => containsCI r.account_nm kw) with
    | none => find_amount rows col rest
    | some r =>
      match parseAmount? (getCol r col) with
      | some v => v
      | none => find_amount rows col rest

/-- The canonical metric keys with their ordered synonym lists, exactly as in
the dict literal returned by `_extract_raw_amounts`. -/
def metricSynonyms : List (String × List String) :=
  [("매출액", ["매출액", "revenue", "sales"]),
   ("매출원가", ["매출원가", "cost of sales"]),
   ("매출총이익", ["매출총이익", "gross profit", "총이익"]),
   ("영업이익", ["영업이익", "operating profit", "영업손익"]),
   ("당기순이익", ["당기순이익", "net income", "순이익"]),
   ("판관비", ["판매비와관리비", "판관비", "selling and administrative"]),
   ("판매비", ["판매비", "selling expenses"]),
   ("관리비", ["관리비", "administrative expenses"])]

/-- A Python dict from metric keys to amounts, as an association list with
first-binding lookup. -/
abbrev AmountMap := List (String × ℚ)

/-- `_extract_raw_amounts(df, column)`: the dict binding every canonical key
to `find_amount` of its synonym list. -/
def extract_raw_amounts (rec : FilingRecord) (col : Column) : AmountMap :=
  metricSynonyms.map (fun p => (p.1, find_amount rec.rows col p.2))

/-- The fixed canonical key enumeration. -/
def canonicalKeys : List String := metricSynonyms.map Prod.fst

/-- Python `d.get(k)`: `some` value of the (first) binding of `k`, else `none`. -/
def dget (d : AmountMap) (k : String) : Option ℚ :=
  (d.find? (fun p => p.1 == k)).map Prod.snd

/-- Python `d.get(k, 0)` (with the code's `or 0` coercion of falsy values,
which is the identity on numeric values). -/
def dget0 (d : AmountMap) (k : String) : ℚ := (dget d k).getD 0

/-- Python `d.keys()`. -/
def dkeys (d : AmountMap) : List String := d.map Prod.fst

/-- `set().union(*[d.keys() for d in dicts if d])` from `add_dicts`. -/
def unionKeys (ds : List AmountMap) : List String :=
  ((ds.filter (fun d => !d.isEmpty)).map dkeys).flatten.dedup

/-- `add_dicts(*dicts)`: key-wise sum over the union of the key sets, missing
keys read as 0. -/
def add_dicts (ds : List AmountMap) : AmountMap :=
  (unionKeys ds).map (fun k =>
    (k, ((ds.filter (fun d => !d.isEmpty)).map (fun d => dget0 d k)).sum))

/-- `sub_dict(a, b)`: key-wise difference over the union of the key sets,
missing keys read as 0. -/
def sub_dict (a b : AmountMap) : AmountMap :=
  (dkeys a ++ dkeys b).dedup.map (fun k => (k, dget0 a k - dget0 b k))

/-- A display row (`_build_display_row` result dict): identity fields plus
optional scaled-amount and ratio fields; `none` models absence of the dict
key. -/
structure DisplayRow where
  company : String
  year : Int
  quarter : String
  reportName : Option String
  revenueT : Option ℚ
  costOfSalesT : Option ℚ
  grossProfitT : Option ℚ
  operatingProfitH : Option ℚ
  netIncomeH : Option ℚ
  sgnaH : Option ℚ
  operatingMarginPct : Option ℚ
  grossMarginPct : Option ℚ
  netMarginPct : Option ℚ
  costRatioPct : Option ℚ
deriving DecidableEq

/-- `_build_display_row(company_name, year, label, raw, report_name)`:
scaled amounts are set only when the raw value is truthy (non-zero; an absent
key reads as 0 via `raw.get`), ratios only when `매출액` (Revenue) is truthy
and the numerator key is present in the dict. -/
def build_display_row (company_name : String) (year : Int) (label : String)
    (raw : AmountMap) (report_name : Option String) : DisplayRow :=
  let sales := dget0 raw "매출액"
  { company := company_name
    year := year
    quarter := label
    reportName := match report_name with
      | some s => if s == "" then none else some s
      | none => none
    revenueT :=
      if dget0 raw "매출액" ≠ 0 then some (dget0 raw "매출액" / 1000000000000) else none
    costOfSalesT :=
      if dget0 raw "매출원가" ≠ 0 then some (dget0 raw "매출원가" / 1000000000000) else none
    grossProfitT :=
      if dget0 raw "매출총이익" ≠ 0 then some (dget0 raw "매출총이익" / 1000000000000) else none
    operatingProfitH :=
      if dget0 raw "영업이익" ≠ 0 then some (dget0 raw "영업이익" / 100000000) else none
    netIncomeH :=
      if dget0 raw "당기순이익" ≠ 0 then some (dget0 raw "당기순이익" / 100000000) else none
    sgnaH :=
      if dget0 raw "판관비" ≠ 0 then some (dget0 raw "판관비" / 100000000) else none
    operatingMarginPct :=
      if sales ≠ 0 ∧ (dget raw "영업이익").isSome then
        some (dget0 raw "영업이익" / sales * 100) else none
    grossMarginPct :=
      if sales ≠ 0 ∧ (dget raw "매출총이익").isSome then
        some (dget0 raw "매출총이익" / sales * 100) else none
    netMarginPct :=
      if sales ≠ 0 ∧ (dget raw "당기순이익").isSome then
        some (dget0 raw "당기순이익" / sales * 100) else none
    costRatioPct :=
      if sales ≠ 0 ∧ (dget raw "매출원가").isSome then
        some (dget0 raw "매출원가" / sales * 100) else none }

/-- The four report codes fetched per collection (`self.report_codes`). -/
inductive Quarter
  | Q1
  | Q2
  | Q3
  | Q4
deriving DecidableEq

/-- Iteration order of `self.report_codes.items()`. -/
def Quarter.all : List Quarter := [Quarter.Q1, Quarter.Q2, Quarter.Q3, Quarter.Q4]

/-- `curr[q]` of the collection loop: the current-amount extraction of the
fetched record for `q`, absent when the fetch returned an empty record. -/
def currMap (fetch : Quarter → FilingRecord) (q : Quarter) : Option AmountMap :=
  if (fetch q).rows.isEmpty then none
  else some (extract_raw_amounts (fetch q) Column.curr)

/-- `cum[q]` of the collection loop: the cumulative-amount extraction when the
`thstrm_add_amount` column exists, else the current-amount extraction. -/
def cumMap (fetch : Quarter → FilingRecord) (q : Quarter) : Option AmountMap :=
  if (fetch q).rows.isEmpty then none
  else if (fetch q).hasAddColumn then some (extract_raw_amounts (fetch q) Column.cum)
  else some (extract_raw_amounts (fetch q) Column.curr)

/-- The `q4` computation of `collect_quarterly_data`:
`sub_dict(curr['Q4'], add_dicts(q1, q2, q3))` when the annual filing was
fetched, the empty dict otherwise. -/
def deriveQ4 (curr : Quarter → Option AmountMap) : AmountMap :=
  match curr Quarter.Q4 with
  | some annual =>
      sub_dict annual
        (add_dicts [(curr Quarter.Q1).getD [], (curr Quarter.Q2).getD [],
          (curr Quarter.Q3).getD []])
  | none => []

/-- `collect_quarterly_data(company_name, year)`, with the external
collaborators passed in: `corp_code` is the result of
`get_corp_code_enhanced` and `fetch` the per-report-code
`get_financial_statement`.  Mirrors the code: bail out on a failed company
resolution or when no quarter had data, build rows Q1..Q3 from the unchanged
current maps, the Q4 row from the derived map, and the annual row from
`cum['Q4']`. -/
def collect_quarterly_data (corp_code : Option String) (fetch : Quarter → FilingRecord)
    (company_name : String) (year : Int) : List DisplayRow :=
  match corp_code with
  | none => []
  | some _ =>
    let curr := currMap fetch
    if (Quarter.all.filter (fun q => (curr q).isSome)).isEmpty then []
    else
      let q1 := (curr Quarter.Q1).getD []
      let q2 := (curr Quarter.Q2).getD []
      let q3 := (curr Quarter.Q3).getD []
      let q4 := deriveQ4 curr
      (if !q1.isEmpty then
        [build_display_row company_name year (toString year ++ "Q1") q1 (some "1분기(당기)")]
       else [])
      ++ (if !q2.isEmpty then
        [build_display_row company_name year (toString year ++ "Q2") q2 (some "2분기(당기)")]
       else [])
      ++ (if !q3.isEmpty then
        [build_display_row company_name year (toString year ++ "Q3") q3 (some "3분기(당기)")]
       else [])
      ++ (if !q4.isEmpty then
        [build_display_row company_name year (toString year ++ "Q4") q4 (some "4분기(당기)")]
       else [])
      ++ (match cumMap fetch Quarter.Q4 with
          | some a =>
            [build_display_row company_name year (toString year ++ " 연간") a
              (some "연간(사업보고서)")]
          | none => [])

/-! ### Dictionary lemmas -/

theorem dget_cons (p : String × ℚ) (d : AmountMap) (k : String) :
    dget (p :: d) k = if p.1 = k then some p.2 else dget d k := by
  by_cases h : p.1 = k
  · simp [dget, List.find?_cons_of_pos, h]
  · simp [dget, List.find?_cons_of_neg, h]

theorem dget_map_keys (L : List String) (f : String → ℚ) (k : String) :
    dget (L.map (fun x => (x, f x))) k = if k ∈ L then some (f k) else none := by
  induction L with
  | nil => simp [dget]
  | cons a t ih =>
    simp only [List.map_cons, dget_cons, List.mem_cons]
    by_cases h : a = k
    · subst h; simp
    · simp [h, ih, Ne.symm h]

theorem dget_eq_none_iff (d : AmountMap) (k : String) :
    dget d k = none ↔ k ∉ dkeys d := by
  induction d with
  | nil => simp [dget, dkeys]
  | cons p t ih =>
    simp only [dget_cons, dkeys, List.map_cons, List.mem_cons]
    by_cases h : p.1 = k
    · simp [h]
    · simp [h, Ne.symm h, ih, dkeys]

theorem dget_isSome_iff (d : AmountMap) (k : String) :
    (dget d k).isSome ↔ k ∈ dkeys d := by
  rw [Option.isSome_iff_ne_none, Ne, dget_eq_none_iff, not_not]

theorem dget0_eq_zero_of_not_mem {d : AmountMap} {k : String} (h : k ∉ dkeys d) :
    dget0 d k = 0 := by
  simp [dget0, (dget_eq_none_iff d k).2 h]

theorem dget_eq_some_of_mem {d : AmountMap} {k : String} (h : k ∈ dkeys d) :
    dget d k = some (dget0 d k) := by
  cases hd : dget d k with
  | none => exact absurd h ((dget_eq_none_iff d k).1 hd)
  | some v => simp [dget0, hd]

theorem dget0_eq_zero_of_all_zero {d : AmountMap} (h : ∀ p ∈ d, p.2 = 0) (k : String) :
    dget0 d k = 0 := by
  unfold dget0 dget
  cases hf : d.find? (fun p => p.1 == k) with
  | none => rfl
  | some p => simp [h p (List.mem_of_find?_eq_some hf)]

theorem dget_sub_dict (a b : AmountMap) (k : String) :
    dget (sub_dict a b) k =
      if k ∈ dkeys a ∨ k ∈ dkeys b then some (dget0 a k - dget0 b k) else none := by
  unfold sub_dict
  rw [dget_map_keys]
  simp [List.mem_dedup]

theorem mem_dkeys_sub_dict (a b : AmountMap) (k : String) :
    k ∈ dkeys (sub_dict a b) ↔ k ∈ dkeys a ∨ k ∈ dkeys b := by
  unfold sub_dict
  rw [dkeys, List.map_map]
  simp [List.mem_dedup]

theorem dget0_sub_dict (a b : AmountMap) (k : String) :
    dget0 (sub_dict a b) k = dget0 a k - dget0 b k := by
  rw [dget0, dget_sub_dict]
  by_cases h : k ∈ dkeys a ∨ k ∈ dkeys b
  · simp [h]
  · push_neg at h
    simp [h.1, h.2, dget0_eq_zero_of_not_mem h.1, dget0_eq_zero_of_not_mem h.2]

theorem sum_map_filter_nonempty (ds : List AmountMap) (f : AmountMap → ℚ)
    (h0 : f [] = 0) :
    ((ds.filter (fun d => !d.isEmpty)).map f).sum = (ds.map f).sum := by
  induction ds with
  | nil => rfl
  | cons d t ih =>
    by_cases hd : d.isEmpty
    · have hnil : d = [] := List.isEmpty_iff.mp hd
      simp [List.filter_cons, hd, hnil, h0, ih]
    · simp [List.filter_cons, hd, ih]

theorem mem_unionKeys (ds : List AmountMap) (k : String) :
    k ∈ unionKeys ds ↔ ∃ d, d ∈ ds ∧ k ∈ dkeys d := by
  unfold unionKeys
  rw [List.mem_dedup, List.mem_flatten]
  constructor
  · rintro ⟨l, hl, hk⟩
    rw [List.mem_map] at hl
    obtain ⟨d, hd, rfl⟩ := hl
    exact ⟨d, (List.mem_filter.mp hd).1, hk⟩
  · rintro ⟨d, hd, hk⟩
    refine ⟨dkeys d, List.mem_map.mpr ⟨d, List.mem_filter.mpr ⟨hd, ?_⟩, rfl⟩, hk⟩
    cases d with
    | nil => simp [dkeys] at hk
    | cons p t => simp

theorem dkeys_add_dicts (ds : List AmountMap) : dkeys (add_dicts ds) = unionKeys ds := by
  unfold add_dicts dkeys
  rw [List.map_map]
  exact List.map_id'' (fun _ => rfl) _

theorem dget0_add_dicts (ds : List AmountMap) (k : String) :
    dget0 (add_dicts ds) k = (ds.map (fun d => dget0 d k)).sum := by
  unfold add_dicts
  rw [dget0, dget_map_keys]
  by_cases h : k ∈ unionKeys ds
  · rw [if_pos h, Option.getD_some]
    exact sum_map_filter_nonempty ds (fun d => dget0 d k) (by simp [dget0, dget])
  · rw [if_neg h, Option.getD_none]
    rw [mem_unionKeys] at h
    push_neg at h
    symm
    refine List.sum_eq_zero ?_
    intro x hx
    rw [List.mem_map] at hx
    obtain ⟨d, hd, rfl⟩ := hx
    exact dget0_eq_zero_of_not_mem (h d hd)

/-! ### Claim theorems -/

/-- C1: for every input map of quarters with the annual (Q4) entry present,
the derived Q4 amount map equals the annual current-amount map minus the
key-wise sum of the Q1, Q2 and Q3 maps: its value at every key is
`annual − (Q1 + Q2 + Q3)` with absent quarters read as all-zero maps, its key
set is the union of the four key sets, and with Q1/Q2/Q3 all absent it equals
the annual map itself. -/
theorem deriveQ4_eq_annual_sub_sum3 (curr : Quarter → Option AmountMap)
    (annual : AmountMap) (h : curr Quarter.Q4 = some annual) :
    (∀ k, dget0 (deriveQ4 curr) k =
        dget0 annual k -
          (dget0 ((curr Quarter.Q1).getD []) k + dget0 ((curr Quarter.Q2).getD []) k +
            dget0 ((curr Quarter.Q3).getD []) k))
    ∧ (∀ k, k ∈ dkeys (deriveQ4 curr) ↔
        (k ∈ dkeys annual ∨ k ∈ dkeys ((curr Quarter.Q1).getD []) ∨
          k ∈ dkeys ((curr Quarter.Q2).getD []) ∨ k ∈ dkeys ((curr Quarter.Q3).getD [])))
    ∧ (curr Quarter.Q1 = none → curr Quarter.Q2 = none → curr Quarter.Q3 = none →
        ∀ k, dget (deriveQ4 curr) k = dget annual k) := by
  unfold deriveQ4
  rw [h]
  refine ⟨?_, ?_, ?_⟩
  · intro k
    rw [dget0_sub_dict, dget0_add_dicts]
    simp only [List.map_cons, List.map_nil, List.sum_cons, List.sum_nil]
    ring
  · intro k
    rw [mem_dkeys_sub_dict, dkeys_add_dicts, mem_unionKeys]
    simp only [List.mem_cons, List.not_mem_nil, or_false, exists_eq_or_imp,
      exists_eq_left]
  · intro h1 h2 h3 k
    rw [h1, h2, h3]
    show dget (sub_dict annual (add_dicts [[], [], []])) k = dget annual k
    have hadd : add_dicts ([] :: [] :: [[]] : List AmountMap) = [] := rfl
    rw [hadd, dget_sub_dict]
    by_cases hk : k ∈ dkeys annual
    · rw [if_pos (Or.inl hk), dget_eq_some_of_mem hk]
      norm_num [dget0, dget]
    · have hno : ¬(k ∈ dkeys annual ∨ k ∈ dkeys ([] : AmountMap)) := by
        rintro (hc | hc)
        · exact hk hc
        · simp [dkeys] at hc
      rw [if_neg hno, eq_comm]
      exact (dget_eq_none_iff annual k).2 hk

/-- Concrete quarter map for the C1 witness: only the annual filing present. -/
def c1Curr : Quarter → Option AmountMap
  | Quarter.Q4 => some [("매출액", 100)]
  | _ => none

theorem deriveQ4_eq_annual_sub_sum3_witness :
    dget0 (deriveQ4 c1Curr) "매출액" =
      dget0 [("매출액", (100 : ℚ))] "매출액" -
        (dget0 ((c1Curr Quarter.Q1).getD []) "매출액" +
          dget0 ((c1Curr Quarter.Q2).getD []) "매출액" +
          dget0 ((c1Curr Quarter.Q3).getD []) "매출액") :=
  (deriveQ4_eq_annual_sub_sum3 c1Curr [("매출액", 100)] rfl).1 "매출액"

theorem reportName_build (company_name : String) (year : Int) (label : String)
    (raw : AmountMap) (s : String) (hs : (s == "") = false) :
    (build_display_row company_name year label raw (some s)).reportName = some s := by
  simp [build_display_row, hs]

theorem mem_collect_cases (corp_code : Option String) (fetch : Quarter → FilingRecord)
    (company_name : String) (year : Int) (r : DisplayRow)
    (hr : r ∈ collect_quarterly_data corp_code fetch company_name year) :
    r = build_display_row company_name year (toString year ++ "Q1")
          ((currMap fetch Quarter.Q1).getD []) (some "1분기(당기)") ∨
    r = build_display_row company_name year (toString year ++ "Q2")
          ((currMap fetch Quarter.Q2).getD []) (some "2분기(당기)") ∨
    r = build_display_row company_name year (toString year ++ "Q3")
          ((currMap fetch Quarter.Q3).getD []) (some "3분기(당기)") ∨
    (deriveQ4 (currMap fetch) ≠ [] ∧
      r = build_display_row company_name year (toString year ++ "Q4")
            (deriveQ4 (currMap fetch)) (some "4분기(당기)")) ∨
    (∃ a, cumMap fetch Quarter.Q4 = some a ∧
      r = build_display_row company_name year (toString year ++ " 연간") a
            (some "연간(사업보고서)")) := by
  cases corp_code with
  | none => simp [collect_quarterly_data] at hr
  | some c =>
    simp only [collect_quarterly_data] at hr
    split at hr
    · simp at hr
    · rcases List.mem_append.mp hr with hr' | hann
      · rcases List.mem_append.mp hr' with hr'' | h4
        · rcases List.mem_append.mp hr'' with hr''' | h3
          · rcases List.mem_append.mp hr''' with h1 | h2
            · split at h1
              · exact Or.inl (List.mem_singleton.mp h1)
              · simp at h1
            · split at h2
              · exact Or.inr (Or.inl (List.mem_singleton.mp h2))
              · simp at h2
          · split at h3
            · exact Or.inr (Or.inr (Or.inl (List.mem_singleton.mp h3)))
            · simp at h3
        · split at h4
          · refine Or.inr (Or.inr (Or.inr (Or.inl ⟨?_, List.mem_singleton.mp h4⟩)))
            rename_i hne
            simpa [List.isEmpty_iff] using hne
          · simp at h4
      · rcases hmatch : cumMap fetch Quarter.Q4 with _ | a
        · rw [hmatch] at hann
          simp at hann
        · rw [hmatch] at hann
          exact Or.inr (Or.inr (Or.inr (Or.inr
            ⟨a, rfl, List.mem_singleton.mp hann⟩)))

/-- C2: when the annual (Q4) filing is absent, reconciliation produces no
derived Q4 entry at all (the empty dict, not a zero-filled map) and no Q4 row
appears in the resulting table, regardless of which of Q1, Q2, Q3 are
present. -/
theorem no_q4_row_when_annual_absent (corp_code : Option String)
    (fetch : Quarter → FilingRecord) (company_name : String) (year : Int)
    (h : (fetch Quarter.Q4).rows = []) :
    deriveQ4 (currMap fetch) = [] ∧
    ∀ r ∈ collect_quarterly_data corp_code fetch company_name year,
      r.reportName ≠ some "4분기(당기)" := by
  have hq4 : currMap fetch Quarter.Q4 = none := by
    unfold currMap
    rw [h]
    rfl
  have hcum : cumMap fetch Quarter.Q4 = none := by
    unfold cumMap
    rw [h]
    rfl
  have hderive : deriveQ4 (currMap fetch) = [] := by
    unfold deriveQ4
    rw [hq4]
  refine ⟨hderive, ?_⟩
  intro r hr
  rcases mem_collect_cases corp_code fetch company_name year r hr with
    h1 | h2 | h3 | ⟨hne, _⟩ | ⟨a, ha, _⟩
  · rw [h1, reportName_build _ _ _ _ _ (by decide)]
    simp
  · rw [h2, reportName_build _ _ _ _ _ (by decide)]
    simp
  · rw [h3, reportName_build _ _ _ _ _ (by decide)]
    simp
  · exact absurd hderive hne
  · rw [hcum] at ha
    exact absurd ha (by simp)

/-- Concrete record for witnesses: a single revenue line whose reported
amount is `"0"`. -/
def zeroRecord : FilingRecord :=
  { rows := [{ account_nm := "매출액", thstrm_amount := "0", thstrm_add_amount := "0" }],
    hasAddColumn := true }

/-- Concrete fetch for the C2 witness: data for Q1–Q3, nothing for Q4. -/
def c2Fetch : Quarter → FilingRecord
  | Quarter.Q4 => { rows := [], hasAddColumn := true }
  | _ => zeroRecord

theorem no_q4_row_when_annual_absent_witness :
    deriveQ4 (currMap c2Fetch) = [] ∧
    (build_display_row "SK에너지" 2024 (toString (2024 : Int) ++ "Q1")
        (extract_raw_amounts zeroRecord Column.curr) (some "1분기(당기)")).reportName ≠
      some "4분기(당기)" :=
  ⟨(no_q4_row_when_annual_absent (some "00126380") c2Fetch "SK에너지" 2024 rfl).1,
    (no_q4_row_when_annual_absent (some "00126380") c2Fetch "SK에너지" 2024 rfl).2
      _ (List.mem_of_mem_head? (by decide))⟩

theorem extract_raw_amounts_isEmpty (rec : FilingRecord) (col : Column) :
    (extract_raw_amounts rec col).isEmpty = false := by
  simp [extract_raw_amounts, metricSynonyms]

theorem currMap_eq_some {fetch : Quarter → FilingRecord} {q : Quarter}
    (h : (fetch q).rows ≠ []) :
    currMap fetch q = some (extract_raw_amounts (fetch q) Column.curr) := by
  unfold currMap
  rw [if_neg]
  simp [List.isEmpty_iff, h]

theorem collect_filter_ne {fetch : Quarter → FilingRecord} {q : Quarter}
    (h : (currMap fetch q).isSome) :
    (Quarter.all.filter (fun q => (currMap fetch q).isSome)).isEmpty = false := by
  have hq : q ∈ Quarter.all.filter (fun q => (currMap fetch q).isSome) :=
    List.mem_filter.mpr ⟨by cases q <;> simp [Quarter.all], h⟩
  cases hf : Quarter.all.filter (fun q => (currMap fetch q).isSome) with
  | nil => rw [hf] at hq; simp at hq
  | cons a t => simp

theorem q1_row_mem {c : String} {fetch : Quarter → FilingRecord}
    {company_name : String} {year : Int} (h : (fetch Quarter.Q1).rows ≠ []) :
    build_display_row company_name year (toString year ++ "Q1")
        (extract_raw_amounts (fetch Quarter.Q1) Column.curr) (some "1분기(당기)")
      ∈ collect_quarterly_data (some c) fetch company_name year := by
  have hc := currMap_eq_some (q := Quarter.Q1) h
  simp only [collect_quarterly_data]
  rw [if_neg (by rw [collect_filter_ne (q := Quarter.Q1) (by rw [hc]; rfl)]; simp)]
  rw [hc]
  simp only [Option.getD_some]
  rw [if_pos (by rw [extract_raw_amounts_isEmpty]; rfl)]
  exact List.mem_append_left _ (List.mem_append_left _ (List.mem_append_left _
    (List.mem_append_left _ (List.mem_singleton.mpr rfl))))

theorem q2_row_mem {c : String} {fetch : Quarter → FilingRecord}
    {company_name : String} {year : Int} (h : (fetch Quarter.Q2).rows ≠ []) :
    build_display_row company_name year (toString year ++ "Q2")
        (extract_raw_amounts (fetch Quarter.Q2) Column.curr) (some "2분기(당기)")
      ∈ collect_quarterly_data (some c) fetch company_name year := by
  have hc := currMap_eq_some (q := Quarter.Q2) h
  simp only [collect_quarterly_data]
  rw [if_neg (by rw [collect_filter_ne (q := Quarter.Q2) (by rw [hc]; rfl)]; simp)]
  rw [hc]
  simp only [Option.getD_some]
  refine List.mem_append_left _ (List.mem_append_left _ (List.mem_append_left _
    (List.mem_append_right _ ?_)))
  rw [if_pos (by rw [extract_raw_amounts_isEmpty]; rfl)]
  exact List.mem_singleton.mpr rfl

theorem q3_row_mem {c : String} {fetch : Quarter → FilingRecord}
    {company_name : String} {year : Int} (h : (fetch Quarter.Q3).rows ≠ []) :
    build_display_row company_name year (toString year ++ "Q3")
        (extract_raw_amounts (fetch Quarter.Q3) Column.curr) (some "3분기(당기)")
      ∈ collect_quarterly_data (some c) fetch company_name year := by
  have hc := currMap_eq_some (q := Quarter.Q3) h
  simp only [collect_quarterly_data]
  rw [if_neg (by rw [collect_filter_ne (q := Quarter.Q3) (by rw [hc]; rfl)]; simp)]
  rw [hc]
  simp only [Option.getD_some]
  refine List.mem_append_left _ (List.mem_append_left _ (List.mem_append_right _ ?_))
  rw [if_pos (by rw [extract_raw_amounts_isEmpty]; rfl)]
  exact List.mem_singleton.mpr rfl

/-- C3: the Q1, Q2 and Q3 amount maps used to build their table rows are
exactly the extracted current-period maps, unchanged — each fetched quarter's
row in the collection output is `build_display_row` applied directly to
`extract_raw_amounts` of its record, with no subtraction or other arithmetic
in between (only Q4 is a derived difference). -/
theorem q1_q2_q3_pass_through_unchanged (c : String) (fetch : Quarter → FilingRecord)
    (company_name : String) (year : Int) :
    ((fetch Quarter.Q1).rows ≠ [] →
      build_display_row company_name year (toString year ++ "Q1")
          (extract_raw_amounts (fetch Quarter.Q1) Column.curr) (some "1분기(당기)")
        ∈ collect_quarterly_data (some c) fetch company_name year)
    ∧ ((fetch Quarter.Q2).rows ≠ [] →
      build_display_row company_name year (toString year ++ "Q2")
          (extract_raw_amounts (fetch Quarter.Q2) Column.curr) (some "2분기(당기)")
        ∈ collect_quarterly_data (some c) fetch company_name year)
    ∧ ((fetch Quarter.Q3).rows ≠ [] →
      build_display_row company_name year (toString year ++ "Q3")
          (extract_raw_amounts (fetch Quarter.Q3) Column.curr) (some "3분기(당기)")
        ∈ collect_quarterly_data (some c) fetch company_name year) :=
  ⟨fun h => q1_row_mem h, fun h => q2_row_mem h, fun h => q3_row_mem h⟩

/-- Concrete fetch for the C3 witness. -/
def c3Fetch : Quarter → FilingRecord
  | _ => zeroRecord

theorem q1_q2_q3_pass_through_unchanged_witness :
    build_display_row "SK에너지" 2024 (toString (2024 : Int) ++ "Q1")
        (extract_raw_amounts (c3Fetch Quarter.Q1) Column.curr) (some "1분기(당기)")
      ∈ collect_quarterly_data (some "00126380") c3Fetch "SK에너지" 2024 :=
  (q1_q2_q3_pass_through_unchanged "00126380" c3Fetch "SK에너지" 2024).1 (by decide)

/-! ### Character and strip lemmas for the parsing claims -/

theorem digit_ne {c d : Char} (h : c.isDigit = true) (hd : d.isDigit = false) :
    c ≠ d := by
  intro hc
  rw [hc, hd] at h
  exact Bool.false_ne_true h

theorem dropWhile_eq_self_of_forall {p : Char → Bool} {l : List Char}
    (h : ∀ x ∈ l, p x = false) : l.dropWhile p = l := by
  cases l with
  | nil => rfl
  | cons a t =>
    rw [List.dropWhile_cons, if_neg]
    simp [h a (List.mem_cons_self a t)]

theorem digit_not_paren {c : Char} (h : c.isDigit = true) : isParenChar c = false := by
  unfold isParenChar
  have h1 : c ≠ '(' := digit_ne h (by decide)
  have h2 : c ≠ ')' := digit_ne h (by decide)
  simp [h1, h2]

theorem digit_not_ws {c : Char} (h : c.isDigit = true) : c.isWhitespace = false := by
  unfold Char.isWhitespace
  have h1 : c ≠ ' ' := digit_ne h (by decide)
  have h2 : c ≠ '\t' := digit_ne h (by decide)
  have h3 : c ≠ '\x0d' := digit_ne h (by decide)
  have h4 : c ≠ '\n' := digit_ne h (by decide)
  simp [h1, h2, h3, h4]

theorem pyStrip_eq_self {s : String} (h : ∀ c ∈ s.data, c.isWhitespace = false) :
    pyStrip s = s := by
  apply String.ext
  show ((s.data.dropWhile Char.isWhitespace).reverse.dropWhile
    Char.isWhitespace).reverse = s.data
  rw [dropWhile_eq_self_of_forall h,
    dropWhile_eq_self_of_forall (fun x hx => h x (List.mem_reverse.mp hx)),
    List.reverse_reverse]

theorem stripCommas_eq_self {s : String} (h : ∀ c ∈ s.data, (c ≠ ',' : Bool) = true) :
    stripCommas s = s := by
  apply String.ext
  show s.data.filter (fun c => c ≠ ',') = s.data
  exact List.filter_eq_self.mpr h

theorem parseFloatCore_digits {l : List Char} (hne : l ≠ [])
    (hd : ∀ c ∈ l, c.isDigit = true) :
    parseFloatCore? l = some (digitsVal l : ℚ) := by
  unfold parseFloatCore?
  rw [List.takeWhile_eq_self_iff.mpr hd, List.dropWhile_eq_nil_iff.mpr hd]
  simp [List.isEmpty_iff, hne]

theorem parseFloat_neg_digits {l : List Char} (hne : l ≠ [])
    (hd : ∀ c ∈ l, c.isDigit = true) :
    parseFloatChars? ('-' :: l) = some (-(digitsVal l : ℚ)) := by
  simp [parseFloatChars?, parseFloatCore_digits hne hd]

theorem stripParens_paren_digits {l : List Char} (hne : l ≠ [])
    (hd : ∀ c ∈ l, c.isDigit = true) :
    stripParens ⟨'(' :: (l ++ [')'])⟩ = ⟨l⟩ := by
  apply String.ext
  show ((('(' :: (l ++ [')'])).dropWhile isParenChar).reverse.dropWhile
    isParenChar).reverse = l
  rw [List.dropWhile_cons, if_pos (by decide : isParenChar '(' = true)]
  obtain ⟨c, rest, rfl⟩ : ∃ c rest, l = c :: rest := by
    cases l with
    | nil => exact absurd rfl hne
    | cons c rest => exact ⟨c, rest, rfl⟩
  rw [List.cons_append, List.dropWhile_cons,
    if_neg (by simp [digit_not_paren (hd c (List.mem_cons_self _ _))]),
    ← List.cons_append, List.reverse_append, List.reverse_singleton,
    List.singleton_append, List.dropWhile_cons, if_pos (by decide : isParenChar ')' = true),
    dropWhile_eq_self_of_forall
      (fun x hx => digit_not_paren (hd x (List.mem_reverse.mp hx))),
    List.reverse_reverse]

theorem stripCommas_idem (s : String) : stripCommas (stripCommas s) = stripCommas s := by
  apply String.ext
  show ((s.data.filter fun c => c ≠ ',').filter fun c => c ≠ ',') =
    s.data.filter fun c => c ≠ ','
  rw [List.filter_filter]
  congr 1
  funext a
  exact Bool.and_self _

/-- C4: numeric parsing of amount cells: the parse is invariant under removal
of thousands separators, a parenthesized digit numeral `(N)` parses to `-N`
(in particular `"(1,234)"` parses to `-1234.0`), and the values `"-"` and
`""` parse to `0.0`. -/
theorem parse_amount_spec :
    (∀ s : String, parseAmount? s = parseAmount? (stripCommas s))
    ∧ (∀ N : String, N.data ≠ [] → (∀ c ∈ N.data, c.isDigit = true) →
        parseAmount? ("(" ++ N ++ ")") = some (-(digitsVal N.data : ℚ)))
    ∧ parseAmount? "(1,234)" = some (-1234)
    ∧ parseAmount? "-" = some 0
    ∧ parseAmount? "" = some 0 := by
  refine ⟨?_, ?_, by decide, by decide, by decide⟩
  · intro s
    simp only [parseAmount?, stripCommas_idem]
  · intro N hne hd
    have hdata : ("(" ++ N ++ ")").data = '(' :: (N.data ++ [')']) := by
      rw [String.data_append, String.data_append]
      rfl
    have hcomma : stripCommas ("(" ++ N ++ ")") = "(" ++ N ++ ")" := by
      refine stripCommas_eq_self ?_
      rw [hdata]
      intro c hc
      rcases List.mem_cons.mp hc with rfl | hc'
      · decide
      · rcases List.mem_append.mp hc' with hc'' | hc''
        · exact decide_eq_true (digit_ne (hd c hc'') (by decide))
        · rw [List.mem_singleton.mp hc'']
          decide
    have hopen : hasChar ("(" ++ N ++ ")") '(' = true := by
      unfold hasChar
      rw [hdata]
      simp
    have hclose : hasChar ("(" ++ N ++ ")") ')' = true := by
      unfold hasChar
      rw [hdata]
      simp
    have hsp : stripParens ("(" ++ N ++ ")") = N := by
      rw [show ("(" ++ N ++ ")") = (⟨'(' :: (N.data ++ [')'])⟩ : String) from
        String.ext hdata]
      exact stripParens_paren_digits hne hd
    have hminus : ("-" ++ N).data = '-' :: N.data := by
      rw [String.data_append]
      rfl
    have hps : pyStrip ("-" ++ N) = "-" ++ N := by
      refine pyStrip_eq_self ?_
      rw [hminus]
      intro c hc
      rcases List.mem_cons.mp hc with rfl | hc'
      · decide
      · exact digit_not_ws (hd c hc')
    have hnotm : (("-" ++ N : String) == "-") = false := by
      refine beq_eq_false_iff_ne.mpr ?_
      intro he
      have := congrArg String.data he
      rw [hminus] at this
      exact hne (by injection this)
    have hnote : (("-" ++ N : String) == "") = false := by
      refine beq_eq_false_iff_ne.mpr ?_
      intro he
      have := congrArg String.data he
      rw [hminus] at this
      exact List.cons_ne_nil _ _ this
    simp only [parseAmount?, hcomma, hopen, hclose, Bool.and_self, if_true, hsp,
      hnotm, hnote, Bool.or_self, Bool.false_eq_true, if_false, parseFloat?, hps,
      hminus, parseFloat_neg_digits hne hd]

theorem parse_amount_spec_witness :
    parseAmount? ("(" ++ "1234" ++ ")") = some (-(digitsVal "1234".data : ℚ)) ∧
    parseAmount? "5,000" = parseAmount? (stripCommas "5,000") :=
  ⟨parse_amount_spec.2.1 "1234" (by decide) (by decide),
    parse_amount_spec.1 "5,000"⟩

/-- C5: per-key error recovery of the extractor: when the first row matching
a synonym has an unparseable amount, that synonym is skipped and the scan
continues with the remaining synonyms; when a synonym matches no row, the
scan likewise continues; and when no synonym matches any row, the key's
value is `0.0`.  Each key's scan is a self-contained computation, so no
failure aborts the key or any other key. -/
theorem find_amount_error_recovery :
    (∀ (rows : List FilingRow) (col : Column) (kw : String) (kws : List String)
        (r : FilingRow),
        rows.find? (fun row => containsCI row.account_nm kw) = some r →
        parseAmount? (getCol r col) = none →
        find_amount rows col (kw :: kws) = find_amount rows col kws)
    ∧ (∀ (rows : List FilingRow) (col : Column) (kw : String) (kws : List String),
        rows.find? (fun row => containsCI row.account_nm kw) = none →
        find_amount rows col (kw :: kws) = find_amount rows col kws)
    ∧ (∀ (rows : List FilingRow) (col : Column) (kws : List String),
        (∀ kw ∈ kws, rows.find? (fun row => containsCI row.account_nm kw) = none) →
        find_amount rows col kws = 0) := by
  refine ⟨?_, ?_, ?_⟩
  · intro rows col kw kws r hfind hparse
    rw [find_amount, hfind]
    simp [hparse]
  · intro rows col kw kws hfind
    rw [find_amount, hfind]
  · intro rows col kws h
    induction kws with
    | nil => rfl
    | cons kw rest ih =>
      rw [find_amount, h kw (List.mem_cons_self _ _)]
      exact ih (fun k hk => h k (List.mem_cons_of_mem _ hk))

/-- Row whose revenue amount does not parse as a number. -/
def badRow : FilingRow :=
  { account_nm := "매출액", thstrm_amount := "abc", thstrm_add_amount := "abc" }

theorem find_amount_error_recovery_witness :
    find_amount [badRow] Column.curr ["매출액", "revenue"] =
      find_amount [badRow] Column.curr ["revenue"] ∧
    find_amount [badRow] Column.curr ["없음"] = 0 :=
  ⟨find_amount_error_recovery.1 [badRow] Column.curr "매출액" ["revenue"] badRow
      (by decide) (by decide),
    find_amount_error_recovery.2.2 [badRow] Column.curr ["없음"]
      (fun kw hkw => by rw [List.mem_singleton.mp hkw]; decide)⟩

theorem ite_some_ne_none_iff {c : Prop} [Decidable c] (x : ℚ) :
    (if c then some x else (none : Option ℚ)) ≠ none ↔ c := by
  by_cases h : c <;> simp [h]

theorem eq_of_ite_some {c : Prop} [Decidable c] {x v : ℚ}
    (h : (if c then some x else (none : Option ℚ)) = some v) : v = x := by
  by_cases hc : c
  · rw [if_pos hc] at h
    exact (Option.some.inj h).symm
  · rw [if_neg hc] at h
    exact absurd h (by simp)

/-- C6: each of the four ratio fields of a display row is present if and only
if Revenue (`매출액`) is non-zero and the numerator's key is present in the
map; a present ratio equals numerator / Revenue × 100; and with zero (or
absent, which reads as 0) Revenue all four ratios are omitted, never computed. -/
theorem ratio_fields_spec (company_name : String) (year : Int) (label : String)
    (raw : AmountMap) (report_name : Option String) :
    ((build_display_row company_name year label raw report_name).operatingMarginPct
        ≠ none ↔ (dget0 raw "매출액" ≠ 0 ∧ "영업이익" ∈ dkeys raw))
    ∧ (∀ v, (build_display_row company_name year label raw report_name).operatingMarginPct
        = some v → v = dget0 raw "영업이익" / dget0 raw "매출액" * 100)
    ∧ ((build_display_row company_name year label raw report_name).grossMarginPct
        ≠ none ↔ (dget0 raw "매출액" ≠ 0 ∧ "매출총이익" ∈ dkeys raw))
    ∧ (∀ v, (build_display_row company_name year label raw report_name).grossMarginPct
        = some v → v = dget0 raw "매출총이익" / dget0 raw "매출액" * 100)
    ∧ ((build_display_row company_name year label raw report_name).netMarginPct
        ≠ none ↔ (dget0 raw "매출액" ≠ 0 ∧ "당기순이익" ∈ dkeys raw))
    ∧ (∀ v, (build_display_row company_name year label raw report_name).netMarginPct
        = some v → v = dget0 raw "당기순이익" / dget0 raw "매출액" * 100)
    ∧ ((build_display_row company_name year label raw report_name).costRatioPct
        ≠ none ↔ (dget0 raw "매출액" ≠ 0 ∧ "매출원가" ∈ dkeys raw))
    ∧ (∀ v, (build_display_row company_name year label raw report_name).costRatioPct
        = some v → v = dget0 raw "매출원가" / dget0 raw "매출액" * 100)
    ∧ (dget0 raw "매출액" = 0 →
        (build_display_row company_name year label raw report_name).operatingMarginPct
          = none
        ∧ (build_display_row company_name year label raw report_name).grossMarginPct
          = none
        ∧ (build_display_row company_name year label raw report_name).netMarginPct
          = none
        ∧ (build_display_row company_name year label raw report_name).costRatioPct
          = none) := by
  simp only [build_display_row]
  refine ⟨?_, ?_, ?_, ?_, ?_, ?_, ?_, ?_, ?_⟩
  · rw [ite_some_ne_none_iff, dget_isSome_iff]
  · intro v hv
    exact eq_of_ite_some hv
  · rw [ite_some_ne_none_iff, dget_isSome_iff]
  · intro v hv
    exact eq_of_ite_some hv
  · rw [ite_some_ne_none_iff, dget_isSome_iff]
  · intro v hv
    exact eq_of_ite_some hv
  · rw [ite_some_ne_none_iff, dget_isSome_iff]
  · intro v hv
    exact eq_of_ite_some hv
  · intro h0
    simp [h0]

theorem ratio_fields_spec_witness :
    (build_display_row "SK에너지" 2024 "2024Q1"
        [("매출액", (0 : ℚ)), ("매출총이익", (5 : ℚ))] none).operatingMarginPct = none
    ∧ (build_display_row "SK에너지" 2024 "2024Q1"
        [("매출액", (0 : ℚ)), ("매출총이익", (5 : ℚ))] none).grossMarginPct = none
    ∧ (build_display_row "SK에너지" 2024 "2024Q1"
        [("매출액", (0 : ℚ)), ("매출총이익", (5 : ℚ))] none).netMarginPct = none
    ∧ (build_display_row "SK에너지" 2024 "2024Q1"
        [("매출액", (0 : ℚ)), ("매출총이익", (5 : ℚ))] none).costRatioPct = none :=
  (ratio_fields_spec "SK에너지" 2024 "2024Q1"
    [("매출액", (0 : ℚ)), ("매출총이익", (5 : ℚ))] none).2.2.2.2.2.2.2.2 (by decide)

/-- C7: each scaled-amount field of a display row is present if and only if
the source key's value is non-zero (an exact 0.0, or an absent key, omits the
field); Revenue, CostOfSales and GrossProfit are divided by 10^12 and
OperatingProfit, NetIncome and SG&A by 10^8; the value is passed through the
division unclamped, so negative derived amounts keep their sign. -/
theorem scaled_fields_spec (company_name : String) (year : Int) (label : String)
    (raw : AmountMap) (report_name : Option String) :
    ((build_display_row company_name year label raw report_name).revenueT ≠ none ↔
      dget0 raw "매출액" ≠ 0)
    ∧ (∀ v, (build_display_row company_name year label raw report_name).revenueT
        = some v → v = dget0 raw "매출액" / 1000000000000)
    ∧ ((build_display_row company_name year label raw report_name).costOfSalesT ≠ none ↔
      dget0 raw "매출원가" ≠ 0)
    ∧ (∀ v, (build_display_row company_name year label raw report_name).costOfSalesT
        = some v → v = dget0 raw "매출원가" / 1000000000000)
    ∧ ((build_display_row company_name year label raw report_name).grossProfitT ≠ none ↔
      dget0 raw "매출총이익" ≠ 0)
    ∧ (∀ v, (build_display_row company_name year label raw report_name).grossProfitT
        = some v → v = dget0 raw "매출총이익" / 1000000000000)
    ∧ ((build_display_row company_name year label raw report_name).operatingProfitH ≠ none ↔
      dget0 raw "영업이익" ≠ 0)
    ∧ (∀ v, (build_display_row company_name year label raw report_name).operatingProfitH
        = some v → v = dget0 raw "영업이익" / 100000000)
    ∧ ((build_display_row company_name year label raw report_name).netIncomeH ≠ none ↔
      dget0 raw "당기순이익" ≠ 0)
    ∧ (∀ v, (build_display_row company_name year label raw report_name).netIncomeH
        = some v → v = dget0 raw "당기순이익" / 100000000)
    ∧ ((build_display_row company_name year label raw report_name).sgnaH ≠ none ↔
      dget0 raw "판관비" ≠ 0)
    ∧ (∀ v, (build_display_row company_name year label raw report_name).sgnaH
        = some v → v = dget0 raw "판관비" / 100000000) := by
  simp only [build_display_row]
  refine ⟨?_, ?_, ?_, ?_, ?_, ?_, ?_, ?_, ?_, ?_, ?_, ?_⟩ <;>
    first
      | rw [ite_some_ne_none_iff]
      | (intro v hv; exact eq_of_ite_some hv)

theorem scaled_fields_spec_witness :
    (build_display_row "SK에너지" 2024 "2024Q4" [("영업이익", (-50 : ℚ))]
        (some "4분기(당기)")).operatingProfitH =
      some (dget0 [("영업이익", (-50 : ℚ))] "영업이익" / 100000000) := by
  obtain ⟨v, hv⟩ := Option.ne_none_iff_exists'.mp
    ((scaled_fields_spec "SK에너지" 2024 "2024Q4" [("영업이익", (-50 : ℚ))]
      (some "4분기(당기)")).2.2.2.2.2.2.1.mpr (by decide))
  rw [hv, (scaled_fields_spec "SK에너지" 2024 "2024Q4" [("영업이익", (-50 : ℚ))]
    (some "4분기(당기)")).2.2.2.2.2.2.2.1 v hv]

/-- C8: when the company cannot be resolved, or every one of the four
report-code fetches returns an empty record, the collection returns an empty
table.  The model is a total function, mirroring the code's early `return
pd.DataFrame()` paths: the empty table is a normal value, not a raised
error. -/
theorem collect_empty_result (fetch : Quarter → FilingRecord)
    (company_name : String) (year : Int) :
    collect_quarterly_data none fetch company_name year = []
    ∧ (∀ c : String, (∀ q, (fetch q).rows = []) →
        collect_quarterly_data (some c) fetch company_name year = []) := by
  refine ⟨rfl, ?_⟩
  intro c h
  have hcurr : ∀ q, (currMap fetch q).isSome = false := by
    intro q
    unfold currMap
    rw [h q]
    rfl
  simp only [collect_quarterly_data]
  rw [if_pos]
  simp [Quarter.all, List.filter_cons, hcurr]

/-- Fetch returning an empty record for every report code. -/
def c8Fetch : Quarter → FilingRecord := fun _ => { rows := [], hasAddColumn := false }

theorem collect_empty_result_witness :
    collect_quarterly_data (some "00126380") c8Fetch "SK에너지" 2024 = [] :=
  (collect_empty_result c8Fetch "SK에너지" 2024).2 "00126380" (fun _ => rfl)

/-- C10: a quarter whose fetch returned a non-empty record still contributes
a row even when every extracted amount is `0.0`: the row built from the
unchanged extracted map is in the output, and it carries only the identity
fields (company, year, quarter label, report-type label) with every
scaled-amount and ratio field omitted.  A slice is skipped only when its
fetch returned no record. -/
theorem zero_amount_quarter_still_has_row (c : String)
    (fetch : Quarter → FilingRecord) (company_name : String) (year : Int) :
    ((fetch Quarter.Q1).rows ≠ [] →
      (∀ p ∈ extract_raw_amounts (fetch Quarter.Q1) Column.curr, p.2 = 0) →
      build_display_row company_name year (toString year ++ "Q1")
          (extract_raw_amounts (fetch Quarter.Q1) Column.curr) (some "1분기(당기)")
        ∈ collect_quarterly_data (some c) fetch company_name year
      ∧ ∀ r, r = build_display_row company_name year (toString year ++ "Q1")
          (extract_raw_amounts (fetch Quarter.Q1) Column.curr) (some "1분기(당기)") →
        r.company = company_name ∧ r.year = year ∧
        r.quarter = toString year ++ "Q1" ∧ r.reportName = some "1분기(당기)" ∧
        r.revenueT = none ∧ r.costOfSalesT = none ∧ r.grossProfitT = none ∧
        r.operatingProfitH = none ∧ r.netIncomeH = none ∧ r.sgnaH = none ∧
        r.operatingMarginPct = none ∧ r.grossMarginPct = none ∧
        r.netMarginPct = none ∧ r.costRatioPct = none)
    ∧ ((fetch Quarter.Q2).rows ≠ [] →
      (∀ p ∈ extract_raw_amounts (fetch Quarter.Q2) Column.curr, p.2 = 0) →
      build_display_row company_name year (toString year ++ "Q2")
          (extract_raw_amounts (fetch Quarter.Q2) Column.curr) (some "2분기(당기)")
        ∈ collect_quarterly_data (some c) fetch company_name year
      ∧ ∀ r, r = build_display_row company_name year (toString year ++ "Q2")
          (extract_raw_amounts (fetch Quarter.Q2) Column.curr) (some "2분기(당기)") →
        r.company = company_name ∧ r.year = year ∧
        r.quarter = toString year ++ "Q2" ∧ r.reportName = some "2분기(당기)" ∧
        r.revenueT = none ∧ r.costOfSalesT = none ∧ r.grossProfitT = none ∧
        r.operatingProfitH = none ∧ r.netIncomeH = none ∧ r.sgnaH = none ∧
        r.operatingMarginPct = none ∧ r.grossMarginPct = none ∧
        r.netMarginPct = none ∧ r.costRatioPct = none)
    ∧ ((fetch Quarter.Q3).rows ≠ [] →
      (∀ p ∈ extract_raw_amounts (fetch Quarter.Q3) Column.curr, p.2 = 0) →
      build_display_row company_name year (toString year ++ "Q3")
          (extract_raw_amounts (fetch Quarter.Q3) Column.curr) (some "3분기(당기)")
        ∈ collect_quarterly_data (some c) fetch company_name year
      ∧ ∀ r, r = build_display_row company_name year (toString year ++ "Q3")
          (extract_raw_amounts (fetch Quarter.Q3) Column.curr) (some "3분기(당기)") →
        r.company = company_name ∧ r.year = year ∧
        r.quarter = toString year ++ "Q3" ∧ r.reportName = some "3분기(당기)" ∧
        r.revenueT = none ∧ r.costOfSalesT = none ∧ r.grossProfitT = none ∧
        r.operatingProfitH = none ∧ r.netIncomeH = none ∧ r.sgnaH = none ∧
        r.operatingMarginPct = none ∧ r.grossMarginPct = none ∧
        r.netMarginPct = none ∧ r.costRatioPct = none) := by
  refine ⟨?_, ?_, ?_⟩ <;> intro h hz <;>
    [refine ⟨q1_row_mem h, ?_⟩; refine ⟨q2_row_mem h, ?_⟩;
      refine ⟨q3_row_mem h, ?_⟩] <;>
    (intro r hr
     subst hr
     have h0 := dget0_eq_zero_of_all_zero hz
     simp [build_display_row, h0])

theorem zero_amount_quarter_still_has_row_witness :
    (build_display_row "SK에너지" 2024 (toString (2024 : Int) ++ "Q1")
        (extract_raw_amounts (c3Fetch Quarter.Q1) Column.curr) (some "1분기(당기)")).revenueT
        = none
    ∧ (build_display_row "SK에너지" 2024 (toString (2024 : Int) ++ "Q1")
        (extract_raw_amounts (c3Fetch Quarter.Q1) Column.curr) (some "1분기(당기)")).operatingMarginPct
        = none
    ∧ build_display_row "SK에너지" 2024 (toString (2024 : Int) ++ "Q1")
        (extract_raw_amounts (c3Fetch Quarter.Q1) Column.curr) (some "1분기(당기)")
        ∈ collect_quarterly_data (some "00126380") c3Fetch "SK에너지" 2024 :=
  ⟨(((zero_amount_quarter_still_has_row "00126380" c3Fetch "SK에너지" 2024).1
      (by decide) (by decide)).2 _ rfl).2.2.2.2.1,
    (((zero_amount_quarter_still_has_row "00126380" c3Fetch "SK에너지" 2024).1
      (by decide) (by decide)).2 _ rfl).2.2.2.2.2.2.2.2.2.2.1,
    ((zero_amount_quarter_still_has_row "00126380" c3Fetch "SK에너지" 2024).1
      (by decide) (by decide)).1⟩

/-- C9: for every record and either amount column, the extractor's output
binds every one of the fixed canonical metric keys to a numeric value: its
key list is exactly the canonical enumeration, and lookup of each canonical
key succeeds (defaulting to `0.0` when unresolved) — no key is ever missing. -/
theorem extract_total_on_keys (rec : FilingRecord) (col : Column) :
    dkeys (extract_raw_amounts rec col) = canonicalKeys
    ∧ ∀ k ∈ canonicalKeys, (dget (extract_raw_amounts rec col) k).isSome = true := by
  constructor
  · rfl
  · intro k hk
    simp only [canonicalKeys, metricSynonyms, List.map_cons, List.map_nil,
      List.mem_cons, List.not_mem_nil, or_false] at hk
    rcases hk with rfl | rfl | rfl | rfl | rfl | rfl | rfl | rfl <;> rfl

theorem extract_total_on_keys_witness :
    dkeys (extract_raw_amounts zeroRecord Column.curr) = canonicalKeys ∧
    (dget (extract_raw_amounts zeroRecord Column.curr) "매출액").isSome = true :=
  ⟨(extract_total_on_keys zeroRecord Column.curr).1,
    (extract_total_on_keys zeroRecord Column.curr).2 "매출액"
      (List.mem_cons_self _ _)⟩

end Loader
